import Mathlib

/-!
Shallow embedding of the tiered long-term-memory cache implemented in
`kernel/src/tiered_memory.cpp` / `kernel/include/brain/tiered_memory.hpp`
(namespace `hab`), together with proofs about the claims of its
natural-language specification.

Modelling conventions:
* `Scalar` (C++ `double`) is modelled as the real numbers `ℝ`; the exact
  rational meaning of literals such as `0.5`, `0.97`, `1e-10` is used.
* `TimePoint` (`std::chrono::steady_clock::time_point`) is modelled as a real
  number of seconds.  Each member function that calls
  `std::chrono::steady_clock::now()` instead takes the current time `now : ℝ`
  as an explicit argument.  `duration_cast<seconds>` truncates a duration
  toward zero; this is modelled exactly by `truncSec`.
* Eigen vectors are modelled as `List ℝ`; `std::vector` as `List`;
  `std::unordered_map<std::string, size_t>` as an association list where the
  most recent insertion wins (`mapInsert` erases before consing, matching
  `operator[]` overwrite semantics).
* `std::atomic<int>` counters are plain `Int` fields: the claims under study
  are sequential, and the hand-written copy constructor of `MemoryItem`
  copies the atomic's value, which is exactly what copying a plain field does.
* `size_t` casts of `int` values use two's-complement conversion, modelled
  exactly by `sizeTCast`.
* Functions that throw `std::invalid_argument` return `Except LTMError`.
* Wall-clock latency measurement inside `retrieve` is environmental; the
  elapsed time of the call itself is modelled as `0` ms (the latency field
  and the running-average update are otherwise carried faithfully).
* The seeds `hash_seeds_` are produced by `std::mt19937_64 rng(42)`, a fixed
  pseudo-random generator from the C++ standard library (external to this
  repository); they are carried as an uninterpreted list `hash_seeds` in
  `MinHashDedup`.  No property proved here depends on their values.
-/

namespace hab

/-- Two's-complement conversion of a C++ `int` value to `size_t`
(`static_cast<size_t>`): reduce modulo 2^64, then take the non-negative
representative. -/
def sizeTCast (i : Int) : Nat :=
  (i % (2 ^ 64 : Int)).toNat

/-- `duration_cast<seconds>` on a real duration: truncation toward zero. -/
noncomputable def truncSec (x : ℝ) : ℤ :=
  if 0 ≤ x then ⌊x⌋ else ⌈x⌉

/-- 64-bit truncation, as performed by C++ arithmetic on `uint64_t`. -/
def u64 (n : Nat) : Nat := n % 2 ^ 64

/-- Bitwise xor on 64-bit values. -/
def u64xor (a b : Nat) : Nat := u64 (Nat.xor a b)

/-- `std::array<uint64_t, 2>`: the 128-bit MinHash signature. -/
structure MinHashSig where
  h1 : Nat
  h2 : Nat
deriving DecidableEq

/-- Association-list model of `std::unordered_map<std::string, size_t>`:
lookup (`find`). -/
def mapFind : List (String × Nat) → String → Option Nat
  | [], _ => none
  | p :: rest, k => if p.1 = k then some p.2 else mapFind rest k

/-- `operator[]` insertion (insert-or-assign): erase any existing binding,
then add the new one. -/
def mapInsert (m : List (String × Nat)) (k : String) (v : Nat) :
    List (String × Nat) :=
  (k, v) :: m.filter (fun p => p.1 ≠ k)

/-- `unordered_map::erase` by key. -/
def mapErase (m : List (String × Nat)) (k : String) : List (String × Nat) :=
  m.filter (fun p => p.1 ≠ k)

-- ===========================================================================
-- Configuration (tiered_memory.hpp)
-- ===========================================================================

inductive IndexType where
  | HNSW
  | IVF_PQ
  | PARQUET
deriving DecidableEq

inductive PromotionPolicy where
  | RECENT_USE
  | TASK_REWARD
  | NOVELTY
deriving DecidableEq

inductive DemotionPolicy where
  | STALE
  | LOW_REWARD
  | REDUNDANT
deriving DecidableEq

structure HotTierConfig where
  capacity : Int := 50000
  index : IndexType := .HNSW
  hnsw_M : Int := 32
  hnsw_ef_construction : Int := 200
  hnsw_ef_search : Int := 128
  latency_budget_ms : Int := 10

structure WarmTierConfig where
  capacity : Int := 300000
  index : IndexType := .IVF_PQ
  ivf_nlist : Int := 4096
  pq_m : Int := 64
  recall_target : ℝ := 0.95
  latency_budget_ms : Int := 40

structure ColdTierConfig where
  capacity : Int := 2000000
  format : String := "parquet"
  storage_path : String := "./cold_storage"
  async_mode : Bool := true

inductive DedupMethod where
  | MINHASH_128
  | SIMHASH_64
deriving DecidableEq

structure DedupConfig where
  method : DedupMethod := .MINHASH_128
  num_hashes : Int := 128
  similarity_threshold : ℝ := 0.95

structure DecayConfig where
  half_life_days : ℝ := 30.0
  enable_temporal_decay : Bool := true
  enable_usage_decay : Bool := true

structure RetrievalConfig where
  hot_k : Int := 50
  rerank_enabled : Bool := true
  backfill_threshold : ℝ := 0.5
  provenance_filter : Bool := true

structure TieredLTMConfig where
  hot : HotTierConfig := {}
  warm : WarmTierConfig := {}
  cold : ColdTierConfig := {}
  dedup : DedupConfig := {}
  decay : DecayConfig := {}
  retrieval : RetrievalConfig := {}
  consolidation_threshold : ℝ := 0.7
  promotion_policies : List PromotionPolicy :=
    [.RECENT_USE, .TASK_REWARD, .NOVELTY]
  demotion_policies : List DemotionPolicy :=
    [.STALE, .LOW_REWARD, .REDUNDANT]

-- ===========================================================================
-- MemoryItem (tiered_memory.hpp, lines 121-226)
-- ===========================================================================

/-- The memory record.  Field defaults follow the in-class initializers and
the default constructor (whose `steady_clock::now()` timestamps are a call
argument in this embedding and default to `0` here). -/
structure MemoryItem where
  embedding : List ℝ := []
  gw_state : List ℝ := []
  qw_onehot : List ℝ := []
  action : Int := 0
  reward : ℝ := 0
  timestamp : ℝ := 0
  importance : ℝ := 0.5
  provenance_score : ℝ := 1.0
  access_count : Int := 0
  last_access : ℝ := 0
  source_doc_id : String := ""
  tier : String := "hot"
  minhash_sig : MinHashSig := ⟨0, 0⟩

-- ===========================================================================
-- MinHash Deduplicator (tiered_memory.cpp, lines 16-134)
-- ===========================================================================

/-- The deduplicator state: the configured hash count and the seed table
(filled by `std::mt19937_64 rng(42)` in the constructor; uninterpreted
here, see the header comment). -/
structure MinHashDedup where
  num_hashes : Int
  hash_seeds : List Nat

/-- The MurmurHash-inspired mixing applied to each feature hash
(lines 95-99): `hash ^= seed; hash ^= hash >> 33; hash *= C; hash ^= hash >> 33`. -/
def hashMix (seed hash0 : Nat) : Nat :=
  let h1 := u64xor hash0 seed
  let h2 := u64xor h1 (h1 / 2 ^ 33)
  let h3 := u64 (h2 * 0xff51afd7ed558ccd)
  u64xor h3 (h3 / 2 ^ 33)

/-- Minimum of a nonempty fold, used for `minCoeff` / running `min_hash`. -/
def natFoldMin (x : Nat) (l : List Nat) : Nat := l.foldl Nat.min x

/-- `Eigen::VectorXd::minCoeff` on the list model (callers guard nonempty). -/
noncomputable def minCoeff : List ℝ → ℝ
  | [] => 0
  | x :: xs => xs.foldl min x

/-- `Eigen::VectorXd::maxCoeff` on the list model (callers guard nonempty). -/
noncomputable def maxCoeff : List ℝ → ℝ
  | [] => 0
  | x :: xs => xs.foldl max x

/-- `std::clamp` on reals: `v < lo ? lo : hi < v ? hi : v`. -/
noncomputable def clampR (v lo hi : ℝ) : ℝ :=
  if v < lo then lo else if hi < v then hi else v

/-- 8-bit quantization of one embedding coordinate (lines 82-86):
`static_cast<uint8_t>(std::clamp(normalized * 255.0, 0.0, 255.0))`.
The cast truncates toward zero; the clamped value is non-negative, so this
is the floor. -/
noncomputable def quantizeCoord (minv range x : ℝ) : Nat :=
  (⌊clampR ((x - minv) / range * 255.0) 0 255⌋).toNat

/-- `MinHashDedup::compute_signature(const Eigen::VectorXd&)`
(tiered_memory.cpp, lines 67-108). -/
noncomputable def MinHashDedup.compute_signature (d : MinHashDedup)
    (embedding : List ℝ) : MinHashSig :=
  if embedding.length = 0 then ⟨u64 (2 ^ 64 - 1), u64 (2 ^ 64 - 1)⟩
  else
    let minv := minCoeff embedding
    let maxv := maxCoeff embedding
    let range0 := maxv - minv
    let range := if range0 < 1e-10 then 1.0 else range0
    let quantized := embedding.map (quantizeCoord minv range)
    let slot := fun (h : Nat) =>
      let feats := quantized.enum.map
        (fun p => hashMix (d.hash_seeds.getD h 0) (u64 (p.1 * 31 + p.2)))
      natFoldMin (u64 (2 ^ 64 - 1)) feats
    ⟨slot 0, slot 1⟩

/-- `MinHashDedup::jaccard_similarity` (lines 110-121): the fraction of the
two signature slots that agree. -/
noncomputable def MinHashDedup.jaccard_similarity
    (sig1 sig2 : MinHashSig) : ℝ :=
  (((if sig1.h1 = sig2.h1 then 1 else 0) +
    (if sig1.h2 = sig2.h2 then 1 else 0) : ℝ)) / 2.0

/-- `MinHashDedup::is_duplicate` (lines 123-134): true iff some existing
signature is at least `threshold`-similar. -/
def MinHashDedup.sig_is_duplicate (sig : MinHashSig)
    (existing : List MinHashSig) (threshold : ℝ) : Prop :=
  ∃ e ∈ existing, threshold ≤ MinHashDedup.jaccard_similarity sig e

-- ===========================================================================
-- Similarity search helpers (tiered_memory.cpp, lines 652-714)
-- ===========================================================================

/-- Dot product of two vectors (`Eigen` `a.dot(b)` on equal-size vectors). -/
def dotR (a b : List ℝ) : ℝ := (List.zipWith (fun x y => x * y) a b).sum

/-- Euclidean norm (`Eigen` `a.norm()`). -/
noncomputable def vnorm (a : List ℝ) : ℝ := Real.sqrt (dotR a a)

/-- `TieredLTM::cosine_similarity` (lines 704-714).  (A `const` member that
reads no object state; modelled as a free function.) -/
noncomputable def cosine_similarity (a b : List ℝ) : ℝ :=
  if a.length ≠ b.length ∨ a.length = 0 then 0
  else
    let na := vnorm a
    let nb := vnorm b
    if na < 1e-10 ∨ nb < 1e-10 then 0
    else clampR (dotR a b / (na * nb)) (-1) 1

/-- Insertion of one scored element into a list sorted descending by score,
the building block of the descending sort used to model `std::sort` /
`std::partial_sort` with comparator `a.second > b.second`. -/
noncomputable def insertDesc {α : Type} (p : α × ℝ) :
    List (α × ℝ) → List (α × ℝ)
  | [] => [p]
  | q :: rest => if q.2 < p.2 then p :: q :: rest else q :: insertDesc p rest

/-- Sort a scored list descending by score (models the `std::sort` /
`std::partial_sort` calls with comparator `a.second > b.second`). -/
noncomputable def sortDesc {α : Type} (l : List (α × ℝ)) : List (α × ℝ) :=
  l.foldr insertDesc []

/-- Top-k selection (lines 664-674 and 691-699): if there are more than `k`
scored entries, keep the best `k` in descending order (`partial_sort` +
`resize`), otherwise sort everything descending. -/
noncomputable def topKDesc (results : List (Nat × ℝ)) (k : Int) :
    List (Nat × ℝ) :=
  if k < (results.length : Int) then (sortDesc results).take k.toNat
  else sortDesc results

-- ===========================================================================
-- TieredLTM state (tiered_memory.hpp, lines 293-478)
-- ===========================================================================

/-- `TieredLTM::Stats`.  The atomic counters are plain `Int` fields (their
copy constructor copies the loaded value). -/
structure Stats where
  hot_count : Int := 0
  warm_count : Int := 0
  cold_count : Int := 0
  total_count : Int := 0
  duplicates_blocked : Int := 0
  promotions : Int := 0
  demotions : Int := 0
  total_queries : Int := 0
  avg_hot_latency_ms : ℝ := 0.0
  avg_warm_latency_ms : ℝ := 0.0

/-- The complete `TieredLTM` object state: the three tier vectors with their
doc-id indices, the deduplicator with its signature set, and the statistics.
Locks are not represented: all claims under study are about the sequential
behaviour of the operations. -/
structure TieredLTM where
  config : TieredLTMConfig
  hot_tier : List MemoryItem := []
  hot_index : List (String × Nat) := []
  warm_tier : List MemoryItem := []
  warm_index : List (String × Nat) := []
  cold_tier : List MemoryItem := []
  cold_index : List (String × Nat) := []
  dedup : MinHashDedup
  signatures : List MinHashSig := []
  stats : Stats := {}

/-- `rebuild_hot_index` / `rebuild_warm_index` / `rebuild_cold_index`
(lines 723-742): clear the map, then insert `doc_id -> i` for each position. -/
def rebuildIndex (items : List MemoryItem) : List (String × Nat) :=
  items.enum.foldl (fun m p => mapInsert m p.2.source_doc_id p.1) []

/-- `TieredLTM::validate_item` (lines 716-721). -/
def TieredLTM.validate_item (_s : TieredLTM) (item : MemoryItem) : Prop :=
  0 < item.embedding.length ∧
  0 ≤ item.importance ∧ item.importance ≤ 1 ∧
  0 ≤ item.provenance_score ∧ item.provenance_score ≤ 1 ∧
  item.source_doc_id ≠ ""

/-- `TieredLTM::is_duplicate` (lines 509-512): compute the signature of the
item's embedding and compare against the stored signature set. -/
noncomputable def TieredLTM.is_duplicate (s : TieredLTM)
    (item : MemoryItem) : Prop :=
  MinHashDedup.sig_is_duplicate (s.dedup.compute_signature item.embedding)
    s.signatures s.config.dedup.similarity_threshold

noncomputable instance (s : TieredLTM) (item : MemoryItem) :
    Decidable (s.validate_item item) := by
  unfold TieredLTM.validate_item
  infer_instance

noncomputable instance (s : TieredLTM) (item : MemoryItem) :
    Decidable (s.is_duplicate item) := by
  unfold TieredLTM.is_duplicate MinHashDedup.sig_is_duplicate
  infer_instance

/-- `TieredLTM::record_access` (lines 790-793): bump the access counter and
stamp the access time.  Note this acts on whatever `MemoryItem` object it is
handed (in `retrieve` that object is a local copy). -/
def record_access (item : MemoryItem) (now : ℝ) : MemoryItem :=
  { item with access_count := item.access_count + 1, last_access := now }

/-- `TieredLTM::compute_promotion_score` policy terms (lines 590-607). -/
noncomputable def promotionTerm (item : MemoryItem) (now : ℝ) :
    PromotionPolicy → ℝ
  | .RECENT_USE =>
      Real.exp (-(truncSec (now - item.last_access) : ℝ) / 86400.0) * 0.4
  | .TASK_REWARD => item.reward * 0.3
  | .NOVELTY => item.importance * 0.3

/-- `TieredLTM::compute_promotion_score` (lines 586-617). -/
noncomputable def compute_promotion_score (cfg : TieredLTMConfig)
    (item : MemoryItem) (now : ℝ) : ℝ :=
  ((cfg.promotion_policies.map (promotionTerm item now)).sum) *
    item.provenance_score *
    (1.0 + Real.log (1 + (item.access_count : ℝ)))

/-- `TieredLTM::compute_demotion_score` policy terms (lines 622-640). -/
noncomputable def demotionTerm (cfg : TieredLTMConfig) (item : MemoryItem)
    (now : ℝ) : DemotionPolicy → ℝ
  | .STALE =>
      (truncSec (now - item.timestamp) : ℝ) / 86400.0 /
        cfg.decay.half_life_days * 0.4
  | .LOW_REWARD => (1.0 - item.reward) * 0.3
  | .REDUNDANT => (1.0 - item.importance) * 0.3

/-- `TieredLTM::compute_demotion_score` (lines 619-650). -/
noncomputable def compute_demotion_score (cfg : TieredLTMConfig)
    (item : MemoryItem) (now : ℝ) : ℝ :=
  ((cfg.demotion_policies.map (demotionTerm cfg item now)).sum) *
    (2.0 - item.provenance_score) /
    (1.0 + Real.log (1 + (item.access_count : ℝ)))

/-- The index-of-minimum loop of `evict_from_hot` / `evict_from_warm`
(lines 747-757): start at index 0 and keep the first strictly smaller score. -/
noncomputable def evictChoice (f : MemoryItem → ℝ) :
    List MemoryItem → Option Nat
  | [] => none
  | first :: rest =>
      some ((((first :: rest).enum).foldl
        (fun b p => if f p.2 < b.2 then (p.1, f p.2) else b)
        (0, f first)).1)

/-- `TieredLTM::evict_from_hot` (lines 744-765): remove and return the item
with the lowest promotion score.  The in-bounds guard on the chosen index is
provably always true (`evictChoice` only returns indices of the list); C++
indexes unconditionally. -/
noncomputable def TieredLTM.evict_from_hot (s : TieredLTM) (now : ℝ) :
    Option (MemoryItem × TieredLTM) :=
  match evictChoice (fun it => compute_promotion_score s.config it now)
      s.hot_tier with
  | none => none
  | some idx =>
    if h : idx < s.hot_tier.length then
      some (s.hot_tier.get ⟨idx, h⟩,
        { s with
          hot_tier := s.hot_tier.eraseIdx idx
          hot_index := rebuildIndex (s.hot_tier.eraseIdx idx) })
    else none

/-- `TieredLTM::add` (lines 235-292): validate, dedup-check, evict the
lowest-promotion-score hot item to warm when hot is at capacity, insert into
hot, append the signature, bump counters. -/
noncomputable def TieredLTM.add (s : TieredLTM) (item : MemoryItem)
    (now : ℝ) : Bool × TieredLTM :=
  if ¬ s.validate_item item then (false, s)
  else if s.is_duplicate item then
    (false, { s with stats := { s.stats with
      duplicates_blocked := s.stats.duplicates_blocked + 1 } })
  else
    let sig := s.dedup.compute_signature item.embedding
    let new_item := { item with
      tier := "hot"
      timestamp := now
      last_access := now
      minhash_sig := sig }
    let s1 :=
      if sizeTCast s.config.hot.capacity ≤ s.hot_tier.length then
        match s.evict_from_hot now with
        | some (ev, s2) =>
          { s2 with
            warm_tier := s2.warm_tier ++ [{ ev with tier := "warm" }]
            warm_index := mapInsert s2.warm_index ev.source_doc_id
              s2.warm_tier.length
            stats := { s2.stats with
              warm_count := s2.stats.warm_count + 1
              demotions := s2.stats.demotions + 1 } }
        | none => s
      else s
    (true,
      { s1 with
        hot_tier := s1.hot_tier ++ [new_item]
        hot_index := mapInsert s1.hot_index item.source_doc_id
          s1.hot_tier.length
        signatures := s1.signatures ++ [sig]
        stats := { s1.stats with
          hot_count := s1.stats.hot_count + 1
          total_count := s1.stats.total_count + 1 } })

/-- Error raised as `std::invalid_argument`. -/
inductive LTMError where
  | invalidArgument (msg : String)
deriving DecidableEq

/-- `RetrievalResult` (tiered_memory.hpp, lines 260-265). -/
structure RetrievalResult where
  items : List MemoryItem
  scores : List ℝ
  tiers : List String
  latency_ms : ℝ

/-- `TieredLTM::hnsw_search` (lines 652-675): score every hot item by cosine
similarity and keep the top `k` descending. -/
noncomputable def TieredLTM.hnsw_search (s : TieredLTM) (query : List ℝ)
    (k : Int) : List (Nat × ℝ) :=
  topKDesc
    (s.hot_tier.enum.map
      (fun p => (p.1, cosine_similarity query p.2.embedding)))
    k

/-- `TieredLTM::ivf_pq_search` (lines 677-702): like `hnsw_search` on the
warm tier, with every similarity multiplied by the quantization-simulation
factor 0.97. -/
noncomputable def TieredLTM.ivf_pq_search (s : TieredLTM) (query : List ℝ)
    (k : Int) : List (Nat × ℝ) :=
  topKDesc
    (s.warm_tier.enum.map
      (fun p => (p.1, cosine_similarity query p.2.embedding * 0.97)))
    k

/-- The result-collection loop of `retrieve` (lines 311-319 and 328-336): for
each scored index within bounds, copy the item out of the tier, apply
`record_access` to the copy, and append (item, score, tier-tag). -/
noncomputable def collectHits (tier : List MemoryItem) (now : ℝ)
    (tag : String) (found : List (Nat × ℝ)) :
    List (MemoryItem × ℝ × String) :=
  found.filterMap
    (fun p =>
      if h : p.1 < tier.length then
        some (record_access (tier.get ⟨p.1, h⟩) now, p.2, tag)
      else none)

/-- `TieredLTM::retrieve` (lines 294-360): validate, search hot, backfill
from warm on shortfall, rescale by provenance, update query statistics.  The
items put into the result are copies; only the `stats` field of the object
state changes. -/
noncomputable def TieredLTM.retrieve (s : TieredLTM) (query : List ℝ)
    (k : Int) (now : ℝ) : Except LTMError (RetrievalResult × TieredLTM) :=
  if query.length = 0 then
    .error (.invalidArgument "Query vector cannot be empty")
  else if k < 1 then
    .error (.invalidArgument "k must be >= 1")
  else
    let hotHits := collectHits s.hot_tier now "hot" (s.hnsw_search query k)
    let allHits :=
      if (hotHits.length : Int) < k then
        if s.warm_tier.length ≠ 0 then
          hotHits ++ collectHits s.warm_tier now "warm"
            (s.ivf_pq_search query (k - (hotHits.length : Int)))
        else hotHits
      else hotHits
    let result : RetrievalResult :=
      { items := allHits.map (fun hit => hit.1)
        scores := allHits.map (fun hit => hit.2.1 * hit.1.provenance_score)
        tiers := allHits.map (fun hit => hit.2.2)
        latency_ms := 0 }
    let tq := s.stats.total_queries + 1
    let newAvg :=
      if 0 < tq then
        (s.stats.avg_hot_latency_ms * ((tq : ℝ) - 1) + result.latency_ms) /
          (tq : ℝ)
      else s.stats.avg_hot_latency_ms
    .ok (result,
      { s with stats := { s.stats with
          total_queries := tq
          avg_hot_latency_ms := newAvg } })

/-- `TieredLTM::consolidate` (lines 362-368). -/
noncomputable def TieredLTM.consolidate (s : TieredLTM) (item : MemoryItem)
    (importance : ℝ) (now : ℝ) : TieredLTM :=
  if s.config.consolidation_threshold ≤ importance then
    (s.add { item with importance := importance } now).2
  else s

/-- `TieredLTM::promote` (lines 370-396): only the `"warm" -> "hot"`
direction is implemented; move the item if its id is in the warm index, with
no capacity check on the destination. -/
def TieredLTM.promote (s : TieredLTM) (item_id from_tier to_tier : String) :
    TieredLTM :=
  if from_tier = "warm" ∧ to_tier = "hot" then
    match mapFind s.warm_index item_id with
    | some pos =>
      if h : pos < s.warm_tier.length then
        let item := s.warm_tier.get ⟨pos, h⟩
        let newWarm := s.warm_tier.eraseIdx pos
        { s with
          warm_tier := newWarm
          warm_index := rebuildIndex newWarm
          hot_tier := s.hot_tier ++ [{ item with tier := "hot" }]
          hot_index := mapInsert s.hot_index item_id s.hot_tier.length
          stats := { s.stats with
            warm_count := s.stats.warm_count - 1
            hot_count := s.stats.hot_count + 1
            promotions := s.stats.promotions + 1 } }
      else s
    | none => s
  else s

/-- `TieredLTM::demote` (lines 398-424): only the `"hot" -> "warm"`
direction is implemented; move the item if its id is in the hot index, with
no capacity check on the destination. -/
def TieredLTM.demote (s : TieredLTM) (item_id from_tier to_tier : String) :
    TieredLTM :=
  if from_tier = "hot" ∧ to_tier = "warm" then
    match mapFind s.hot_index item_id with
    | some pos =>
      if h : pos < s.hot_tier.length then
        let item := s.hot_tier.get ⟨pos, h⟩
        let newHot := s.hot_tier.eraseIdx pos
        { s with
          hot_tier := newHot
          hot_index := rebuildIndex newHot
          warm_tier := s.warm_tier ++ [{ item with tier := "warm" }]
          warm_index := mapInsert s.warm_index item_id s.warm_tier.length
          stats := { s.stats with
            hot_count := s.stats.hot_count - 1
            warm_count := s.stats.warm_count + 1
            demotions := s.stats.demotions + 1 } }
      else s
    | none => s
  else s

/-- `TieredLTM::compute_decay_multiplier` (lines 559-584):
`max(temporal * usage, 0.01)` with each factor present only when enabled. -/
noncomputable def compute_decay_multiplier (cfg : TieredLTMConfig)
    (item : MemoryItem) (now : ℝ) : ℝ :=
  let m1 :=
    if cfg.decay.enable_temporal_decay then
      (0.5 : ℝ) ^
        (((truncSec (now - item.timestamp) : ℝ) / 86400.0) /
          cfg.decay.half_life_days)
    else 1
  let m2 :=
    if cfg.decay.enable_usage_decay then
      Real.exp (-((truncSec (now - item.last_access) : ℝ) / 86400.0) /
        (cfg.decay.half_life_days * 2))
    else 1
  max (m1 * m2) 0.01

/-- One item's decay update (`item.importance *= decay_mult`). -/
noncomputable def decayItem (cfg : TieredLTMConfig) (now : ℝ)
    (item : MemoryItem) : MemoryItem :=
  { item with importance :=
      item.importance * compute_decay_multiplier cfg item now }

/-- `TieredLTM::apply_decay` (lines 432-454): early-out when both decay kinds
are disabled, else rescale every hot and warm item's importance. -/
noncomputable def TieredLTM.apply_decay (s : TieredLTM) (now : ℝ) :
    TieredLTM :=
  if s.config.decay.enable_temporal_decay = false ∧
      s.config.decay.enable_usage_decay = false then s
  else
    { s with
      hot_tier := s.hot_tier.map (decayItem s.config now)
      warm_tier := s.warm_tier.map (decayItem s.config now) }

/-- `TieredLTM::hot_size` / `warm_size` / `cold_size` (lines 536-549). -/
def TieredLTM.hot_size (s : TieredLTM) : Nat := s.hot_tier.length

def TieredLTM.warm_size (s : TieredLTM) : Nat := s.warm_tier.length

def TieredLTM.cold_size (s : TieredLTM) : Nat := s.cold_tier.length

/-- `TieredLTM::total_size` (lines 551-553). -/
def TieredLTM.total_size (s : TieredLTM) : Nat :=
  s.hot_size + s.warm_size + s.cold_size

/-- `TieredLTM::check_promotions` (lines 456-480): score the warm items, sort
descending, promote the best ones into the spare hot capacity
(`capacity - hot_size`, a C++ `int` that is never positive when hot is full). -/
noncomputable def TieredLTM.check_promotions (s : TieredLTM) (now : ℝ) :
    TieredLTM :=
  let candidates := s.warm_tier.map
    (fun it => (it.source_doc_id, compute_promotion_score s.config it now))
  let sorted := sortDesc candidates
  let available : Int := s.config.hot.capacity - (s.hot_size : Int)
  let num := min available (candidates.length : Int)
  (sorted.take num.toNat).foldl
    (fun st p => st.promote p.1 "warm" "hot") s

/-- `TieredLTM::check_demotions` (lines 482-507): score the hot items, sort
descending (most demotable first), and demote while hot is over capacity. -/
noncomputable def TieredLTM.check_demotions (s : TieredLTM) (now : ℝ) :
    TieredLTM :=
  let candidates := s.hot_tier.map
    (fun it => (it.source_doc_id, compute_demotion_score s.config it now))
  let sorted := sortDesc candidates
  let over : Int := (s.hot_size : Int) - s.config.hot.capacity
  if 0 < over then
    (sorted.take (min over (candidates.length : Int)).toNat).foldl
      (fun st p => st.demote p.1 "hot" "warm") s
  else s

/-- `TieredLTM::maintenance` (lines 426-430): decay, then promotions, then
demotions. -/
noncomputable def TieredLTM.maintenance (s : TieredLTM) (now : ℝ) :
    TieredLTM :=
  ((s.apply_decay now).check_promotions now).check_demotions now

/-- `TieredLTM::clear` (lines 519-534). -/
def TieredLTM.clear (s : TieredLTM) : TieredLTM :=
  { s with
    hot_tier := []
    hot_index := []
    warm_tier := []
    warm_index := []
    cold_tier := []
    cold_index := []
    signatures := []
    stats := {} }

/-- `TieredLTM::get_stats` (lines 514-517). -/
def TieredLTM.get_stats (s : TieredLTM) : Stats := s.stats

/-- The `TieredLTM` constructor (lines 214-233): a fresh object with empty
tiers, the deduplicator built from the configured hash count and the seed
table.  The constructor's validity checks (`hot.capacity >= 1`,
`warm.capacity >= hot.capacity`, `cold.capacity >= warm.capacity`,
`num_hashes >= 2`) appear as hypotheses on the theorems that need them. -/
def initLTM (cfg : TieredLTMConfig) (seeds : List Nat) : TieredLTM :=
  { config := cfg
    dedup := { num_hashes := cfg.dedup.num_hashes, hash_seeds := seeds } }

-- ===========================================================================
-- Public operations as a step relation (for history-quantified claims)
-- ===========================================================================

/-- One public call to the facade, with the clock value observed during the
call. -/
inductive Op where
  | add (item : MemoryItem) (now : ℝ)
  | retrieve (q : List ℝ) (k : Int) (now : ℝ)
  | consolidate (item : MemoryItem) (importance : ℝ) (now : ℝ)
  | promote (item_id from_tier to_tier : String)
  | demote (item_id from_tier to_tier : String)
  | maintenance (now : ℝ)
  | applyDecay (now : ℝ)
  | checkPromotions (now : ℝ)
  | checkDemotions (now : ℝ)
  | clear

/-- Execute one public call on the state (a throwing `retrieve` leaves the
state unchanged). -/
noncomputable def step (s : TieredLTM) : Op → TieredLTM
  | .add item now => (s.add item now).2
  | .retrieve q k now =>
      match s.retrieve q k now with
      | .ok (_, s2) => s2
      | .error _ => s
  | .consolidate item imp now => s.consolidate item imp now
  | .promote i f t => s.promote i f t
  | .demote i f t => s.demote i f t
  | .maintenance now => s.maintenance now
  | .applyDecay now => s.apply_decay now
  | .checkPromotions now => s.check_promotions now
  | .checkDemotions now => s.check_demotions now
  | .clear => s.clear

/-- Execute a sequence of public calls left to right. -/
noncomputable def run (ops : List Op) (s : TieredLTM) : TieredLTM :=
  ops.foldl step s

-- ===========================================================================
-- Basic lemmas about the helpers
-- ===========================================================================

theorem insertDesc_length {α : Type} (p : α × ℝ) (l : List (α × ℝ)) :
    (insertDesc p l).length = l.length + 1 := by
  induction l with
  | nil => rfl
  | cons q rest ih =>
      simp only [insertDesc]
      split_ifs
      · simp
      · simp [ih]

theorem sortDesc_length {α : Type} (l : List (α × ℝ)) :
    (sortDesc l).length = l.length := by
  induction l with
  | nil => rfl
  | cons p rest ih =>
      rw [show sortDesc (p :: rest) = insertDesc p (sortDesc rest) from rfl,
        insertDesc_length, ih, List.length_cons]

theorem topKDesc_length_le (results : List (Nat × ℝ)) (k : Int)
    (hk : 0 ≤ k) : ((topKDesc results k).length : Int) ≤ k := by
  unfold topKDesc
  split_ifs with h
  · rw [List.length_take, sortDesc_length]
    calc ((min k.toNat results.length : Nat) : Int)
        ≤ (k.toNat : Int) := by exact_mod_cast Nat.min_le_left _ _
      _ = k := Int.toNat_of_nonneg hk
  · rw [sortDesc_length]
    omega

theorem collectHits_length_le (tier : List MemoryItem) (now : ℝ)
    (tag : String) (found : List (Nat × ℝ)) :
    (collectHits tier now tag found).length ≤ found.length :=
  List.length_filterMap_le _ _

theorem collectHits_tag (tier : List MemoryItem) (now : ℝ) (tag : String)
    (found : List (Nat × ℝ)) :
    ∀ x ∈ collectHits tier now tag found, x.2.2 = tag := by
  intro x hx
  simp only [collectHits, List.mem_filterMap] at hx
  obtain ⟨p, _, hpx⟩ := hx
  by_cases h : p.1 < tier.length
  · rw [dif_pos h] at hpx
    cases hpx
    rfl
  · rw [dif_neg h] at hpx
    cases hpx

theorem map_tag_replicate (l : List (MemoryItem × ℝ × String)) (t : String)
    (h : ∀ x ∈ l, x.2.2 = t) :
    l.map (fun hit => hit.2.2) = List.replicate l.length t := by
  induction l with
  | nil => rfl
  | cons x rest ih =>
      simp only [List.map_cons, List.length_cons, List.replicate_succ]
      rw [h x (List.mem_cons_self x rest),
        ih (fun y hy => h y (List.mem_cons_of_mem x hy))]

-- ===========================================================================
-- Claim C8: degenerate vectors score 0
-- ===========================================================================

/-- Claim C8: for every pair of vectors where one has zero norm (or the sizes
differ or are zero), the cosine similarity used by tier search returns
exactly 0 instead of dividing by zero. -/
theorem cosine_similarity_degenerate_zero (a b : List ℝ)
    (h : a.length ≠ b.length ∨ a.length = 0 ∨ vnorm a = 0 ∨ vnorm b = 0) :
    cosine_similarity a b = 0 := by
  simp only [cosine_similarity]
  split_ifs with h1 h2
  · rfl
  · rfl
  · exfalso
    rcases h with h | h | h | h
    · exact h1 (Or.inl h)
    · exact h1 (Or.inr h)
    · exact h2 (Or.inl (by rw [h]; norm_num))
    · exact h2 (Or.inr (by rw [h]; norm_num))

/-- Witness for C8 at the concrete zero vector `[0]`. -/
theorem cosine_similarity_degenerate_zero_witness :
    vnorm [(0 : ℝ)] = 0 ∧ cosine_similarity [(0 : ℝ)] [(0 : ℝ)] = 0 := by
  have hv : vnorm [(0 : ℝ)] = 0 := by
    simp [vnorm, dotR]
  exact ⟨hv,
    cosine_similarity_degenerate_zero _ _ (Or.inr (Or.inr (Or.inl hv)))⟩

-- ===========================================================================
-- Claim C5: retrieve raises InvalidArgument exactly on invalid input
-- ===========================================================================

/-- Claim C5: `TieredLTM::retrieve` signals `InvalidArgument` exactly when
the query is empty or `k < 1`; on every valid input it returns normally (and
the invalid case returns before producing any successor state, so no tier is
touched). -/
theorem retrieve_error_iff_invalid (s : TieredLTM) (q : List ℝ) (k : Int)
    (now : ℝ) :
    (∃ e, s.retrieve q k now = .error e) ↔ (q.length = 0 ∨ k < 1) := by
  unfold TieredLTM.retrieve
  split_ifs with h1 h2
  · simp [h1]
  · simp [h2]
  · simp [h1, h2]

theorem hnsw_search_length_le (s : TieredLTM) (q : List ℝ) (k : Int)
    (hk : 0 ≤ k) : ((s.hnsw_search q k).length : Int) ≤ k := by
  unfold TieredLTM.hnsw_search
  exact topKDesc_length_le _ _ hk

theorem ivf_pq_search_length_le (s : TieredLTM) (q : List ℝ) (k : Int)
    (hk : 0 ≤ k) : ((s.ivf_pq_search q k).length : Int) ≤ k := by
  unfold TieredLTM.ivf_pq_search
  exact topKDesc_length_le _ _ hk

-- ===========================================================================
-- Claim C6: result lists are parallel and bounded by k
-- ===========================================================================

/-- Claim C6: for every non-empty query and `k >= 1`, `retrieve` succeeds and
returns items, scores and tiers lists of one common length, at most `k`, with
all hot-tier results first and the warm backfill after them. -/
theorem retrieve_result_lengths (s : TieredLTM) (q : List ℝ) (k : Int)
    (now : ℝ) (hq : q.length ≠ 0) (hk : 1 ≤ k) :
    ∃ r s2, s.retrieve q k now = .ok (r, s2) ∧
      r.items.length = r.scores.length ∧
      r.items.length = r.tiers.length ∧
      (r.items.length : Int) ≤ k ∧
      ∃ nh nw, r.tiers = List.replicate nh "hot" ++ List.replicate nw "warm" := by
  have hhot : ((collectHits s.hot_tier now "hot" (s.hnsw_search q k)).length : Int) ≤ k := by
    have h1 := collectHits_length_le s.hot_tier now "hot" (s.hnsw_search q k)
    have h2 := hnsw_search_length_le s q k (by omega)
    omega
  unfold TieredLTM.retrieve
  rw [if_neg hq, if_neg (by omega : ¬ k < 1)]
  refine ⟨_, _, rfl, by simp, by simp, ?_, ?_⟩
  · simp only [List.length_map]
    split_ifs with hlt hwarm
    · rw [List.length_append]
      have h1 := collectHits_length_le s.warm_tier now "warm"
        (s.ivf_pq_search q
          (k - ((collectHits s.hot_tier now "hot" (s.hnsw_search q k)).length : Int)))
      have h2 := ivf_pq_search_length_le s q
        (k - ((collectHits s.hot_tier now "hot" (s.hnsw_search q k)).length : Int))
        (by omega)
      omega
    · exact hhot
    · exact hhot
  · split_ifs with hlt hwarm
    · refine ⟨(collectHits s.hot_tier now "hot" (s.hnsw_search q k)).length,
        (collectHits s.warm_tier now "warm"
          (s.ivf_pq_search q
            (k - ((collectHits s.hot_tier now "hot" (s.hnsw_search q k)).length : Int)))).length,
        ?_⟩
      dsimp only
      rw [List.map_append,
        map_tag_replicate _ _ (collectHits_tag _ _ _ _),
        map_tag_replicate _ _ (collectHits_tag _ _ _ _)]
    · refine ⟨(collectHits s.hot_tier now "hot" (s.hnsw_search q k)).length, 0, ?_⟩
      dsimp only
      rw [map_tag_replicate _ _ (collectHits_tag _ _ _ _)]
      simp
    · refine ⟨(collectHits s.hot_tier now "hot" (s.hnsw_search q k)).length, 0, ?_⟩
      dsimp only
      rw [map_tag_replicate _ _ (collectHits_tag _ _ _ _)]
      simp

/-- Witness for C6 on a concrete state and query. -/
theorem retrieve_result_lengths_witness :
    ([(1 : ℝ)].length ≠ 0) ∧ (1 : Int) ≤ 1 ∧
    (∃ r s2,
      TieredLTM.retrieve
        { config := {}, dedup := { num_hashes := 128, hash_seeds := [] } }
        [(1 : ℝ)] 1 0 = .ok (r, s2) ∧
      r.items.length = r.scores.length ∧
      r.items.length = r.tiers.length ∧
      (r.items.length : Int) ≤ 1 ∧
      ∃ nh nw, r.tiers = List.replicate nh "hot" ++ List.replicate nw "warm") :=
  ⟨by simp, le_refl 1,
    retrieve_result_lengths
      { config := {}, dedup := { num_hashes := 128, hash_seeds := [] } }
      [(1 : ℝ)] 1 0 (by simp) (le_refl 1)⟩

-- ===========================================================================
-- Retrieve only changes statistics (core of claim C1)
-- ===========================================================================

/-- A successful `retrieve` leaves every tier, every index, the signature set,
the configuration and the deduplicator exactly as they were: the only state
it writes back is `stats`.  In particular no stored record's `access_count`
or `last_access` changes. -/
theorem retrieve_ok_state_eq (s : TieredLTM) (q : List ℝ) (k : Int) (now : ℝ)
    (r : RetrievalResult) (s2 : TieredLTM)
    (h : s.retrieve q k now = .ok (r, s2)) :
    s2.hot_tier = s.hot_tier ∧ s2.warm_tier = s.warm_tier ∧
    s2.cold_tier = s.cold_tier ∧ s2.config = s.config ∧
    s2.dedup = s.dedup ∧ s2.signatures = s.signatures ∧
    s2.hot_index = s.hot_index ∧ s2.warm_index = s.warm_index := by
  unfold TieredLTM.retrieve at h
  split_ifs at h
  all_goals first
    | (simp only [Except.ok.injEq, Prod.mk.injEq] at h
       rw [← h.2]
       exact ⟨rfl, rfl, rfl, rfl, rfl, rfl, rfl, rfl⟩)
    | simp at h

-- ===========================================================================
-- Claim C1: where does the access_count increment of retrieve land?
-- ===========================================================================

/-- The default configuration (`TieredLTMConfig{}`). -/
def cfg0 : TieredLTMConfig := {}

/-- A deduplicator carrier used by concrete states. -/
def dedup0 : MinHashDedup := { num_hashes := 128, hash_seeds := [] }

/-- A single valid record sitting in the hot tier, with `access_count = 0`. -/
noncomputable def itemC1 : MemoryItem :=
  { embedding := [1], source_doc_id := "a", importance := 1 }

/-- A cache state holding exactly `itemC1` in the hot tier. -/
noncomputable def sC1 : TieredLTM :=
  { config := cfg0
    dedup := dedup0
    hot_tier := [itemC1]
    hot_index := [("a", 0)]
    stats := { hot_count := 1, total_count := 1 } }

/-- Claim C1 (evidence of the divergence): retrieving a hit from the hot
tier leaves the stored record completely unchanged — the `record_access`
increment lands on the local copy that is pushed into the result, so the
stored `access_count` stays 0 while the returned copy reads 1.  The claim's
assertion that the stored record's counter is incremented is false on the
code. -/
theorem retrieve_hit_leaves_stored_record_unchanged :
    ∃ r s2, sC1.retrieve [(1 : ℝ)] 1 0 = .ok (r, s2) ∧
      s2.hot_tier = [itemC1] ∧
      r.items = [record_access itemC1 0] ∧
      itemC1.access_count = 0 ∧
      (record_access itemC1 0).access_count = 1 :=
  ⟨_, _, rfl, rfl, rfl, rfl, rfl⟩

-- ===========================================================================
-- Claim C2: promote/demote and destination capacity
-- ===========================================================================

/-- A record sitting in the hot tier of `sC2`. -/
noncomputable def itemA2 : MemoryItem := { source_doc_id := "a" }

/-- A record sitting in the warm tier of `sC2`. -/
noncomputable def itemB2 : MemoryItem := { source_doc_id := "b", tier := "warm" }

/-- A configuration whose hot tier holds exactly one item. -/
noncomputable def cfgSmall : TieredLTMConfig := { hot := { capacity := 1 } }

/-- A state whose hot tier is exactly at capacity (1 item) and whose warm
tier holds one item. -/
noncomputable def sC2 : TieredLTM :=
  { config := cfgSmall
    dedup := dedup0
    hot_tier := [itemA2]
    hot_index := [("a", 0)]
    warm_tier := [itemB2]
    warm_index := [("b", 0)] }

/-- Claim C2 counterexample: in `sC2` the hot tier is at its configured
capacity, yet `promote("b", "warm", "hot")` still moves the item — hot grows
to 2 items and warm empties — contradicting the claim that promote is a
no-op whenever the destination tier is over capacity. -/
theorem promote_at_capacity_still_moves :
    sizeTCast sC2.config.hot.capacity ≤ sC2.hot_size ∧
    (sC2.promote "b" "warm" "hot").hot_size = 2 ∧
    (sC2.promote "b" "warm" "hot").warm_size = 0 := by
  refine ⟨by decide, rfl, rfl⟩

/-- Claim C2 (amended): `promote(id, "warm", "hot")` and
`demote(id, "hot", "warm")` move the named item from the source tier to the
destination tier whenever the source index knows the id, performing no
capacity check at all on the destination; they are a no-op (not an error)
exactly when the id is missing from the source index (or the tier-name pair
is not the one implemented). -/
theorem promote_demote_move_unconditionally (s : TieredLTM) (i : String) :
    (mapFind s.warm_index i = none → s.promote i "warm" "hot" = s) ∧
    (∀ pos, mapFind s.warm_index i = some pos →
      ∀ h : pos < s.warm_tier.length,
      (s.promote i "warm" "hot").hot_tier =
          s.hot_tier ++ [{ s.warm_tier.get ⟨pos, h⟩ with tier := "hot" }] ∧
      (s.promote i "warm" "hot").warm_tier = s.warm_tier.eraseIdx pos) ∧
    (mapFind s.hot_index i = none → s.demote i "hot" "warm" = s) ∧
    (∀ pos, mapFind s.hot_index i = some pos →
      ∀ h : pos < s.hot_tier.length,
      (s.demote i "hot" "warm").warm_tier =
          s.warm_tier ++ [{ s.hot_tier.get ⟨pos, h⟩ with tier := "warm" }] ∧
      (s.demote i "hot" "warm").hot_tier = s.hot_tier.eraseIdx pos) := by
  refine ⟨?_, ?_, ?_, ?_⟩
  · intro hf
    unfold TieredLTM.promote
    rw [if_pos ⟨rfl, rfl⟩, hf]
  · intro pos hf h
    unfold TieredLTM.promote
    rw [if_pos ⟨rfl, rfl⟩, hf]
    dsimp only
    rw [dif_pos h]
    exact ⟨rfl, rfl⟩
  · intro hf
    unfold TieredLTM.demote
    rw [if_pos ⟨rfl, rfl⟩, hf]
  · intro pos hf h
    unfold TieredLTM.demote
    rw [if_pos ⟨rfl, rfl⟩, hf]
    dsimp only
    rw [dif_pos h]
    exact ⟨rfl, rfl⟩

/-- Witness for the amended C2: the no-op case for an unknown id, and the
capacity-free move on `sC2`. -/
theorem promote_demote_move_witness :
    (sC2.promote "zz" "warm" "hot" = sC2) ∧
    (sC2.promote "b" "warm" "hot").hot_tier =
      sC2.hot_tier ++ [{ itemB2 with tier := "hot" }] := by
  constructor
  · exact (promote_demote_move_unconditionally sC2 "zz").1 rfl
  · exact ((promote_demote_move_unconditionally sC2 "b").2.1 0 rfl
      (by decide)).1

-- ===========================================================================
-- Eviction and add lemmas
-- ===========================================================================

theorem argmin_fold_fst_lt (f : MemoryItem → ℝ) (n : Nat)
    (l : List (Nat × MemoryItem)) :
    ∀ init : Nat × ℝ, init.1 < n → (∀ p ∈ l, p.1 < n) →
      (l.foldl (fun b p => if f p.2 < b.2 then (p.1, f p.2) else b) init).1 < n := by
  induction l with
  | nil => intro init h _; exact h
  | cons p rest ih =>
      intro init hinit hall
      simp only [List.foldl_cons]
      split_ifs with hc
      · exact ih _ (hall p (List.mem_cons_self p rest))
          (fun q hq => hall q (List.mem_cons_of_mem p hq))
      · exact ih _ hinit (fun q hq => hall q (List.mem_cons_of_mem p hq))

theorem evictChoice_lt (f : MemoryItem → ℝ) (items : List MemoryItem)
    (idx : Nat) (h : evictChoice f items = some idx) : idx < items.length := by
  cases items with
  | nil => cases h
  | cons first rest =>
      simp only [evictChoice, Option.some.injEq] at h
      subst h
      apply argmin_fold_fst_lt
      · exact Nat.succ_pos rest.length
      · intro p hp
        exact List.fst_lt_of_mem_enum hp

theorem evict_from_hot_eq (s : TieredLTM) (now : ℝ) (ev : MemoryItem)
    (s2 : TieredLTM) (h : s.evict_from_hot now = some (ev, s2)) :
    s2.hot_tier.length + 1 = s.hot_tier.length ∧
    s2.warm_tier = s.warm_tier ∧ s2.cold_tier = s.cold_tier ∧
    s2.config = s.config ∧ s2.dedup = s.dedup ∧
    s2.signatures = s.signatures ∧ s2.stats = s.stats := by
  unfold TieredLTM.evict_from_hot at h
  cases hc : evictChoice (fun it => compute_promotion_score s.config it now)
      s.hot_tier with
  | none => rw [hc] at h; cases h
  | some idx =>
      rw [hc] at h
      have hlt := evictChoice_lt _ _ _ hc
      dsimp only at h
      rw [dif_pos hlt] at h
      simp only [Option.some.injEq, Prod.mk.injEq] at h
      rw [← h.2]
      refine ⟨?_, rfl, rfl, rfl, rfl, rfl, rfl⟩
      dsimp only
      rw [List.length_eraseIdx_of_lt hlt]
      omega

theorem evict_from_hot_total (s : TieredLTM) (now : ℝ)
    (hne : s.hot_tier ≠ []) :
    ∃ ev s2, s.evict_from_hot now = some (ev, s2) := by
  obtain ⟨x, hx⟩ : ∃ x, evictChoice
      (fun it => compute_promotion_score s.config it now) s.hot_tier = some x := by
    cases hi : s.hot_tier with
    | nil => exact absurd hi hne
    | cons first rest => exact ⟨_, rfl⟩
  unfold TieredLTM.evict_from_hot
  rw [hx]
  dsimp only
  rw [dif_pos (evictChoice_lt _ _ _ hx)]
  exact ⟨_, _, rfl⟩

theorem add_invalid (s : TieredLTM) (item : MemoryItem) (now : ℝ)
    (hv : ¬ s.validate_item item) : s.add item now = (false, s) := by
  unfold TieredLTM.add
  rw [if_pos hv]

theorem add_duplicate (s : TieredLTM) (item : MemoryItem) (now : ℝ)
    (hv : s.validate_item item) (hd : s.is_duplicate item) :
    s.add item now = (false, { s with stats := { s.stats with
      duplicates_blocked := s.stats.duplicates_blocked + 1 } }) := by
  unfold TieredLTM.add
  rw [if_neg (not_not_intro hv), if_pos hd]

theorem add_frame (s : TieredLTM) (item : MemoryItem) (now : ℝ) :
    (s.add item now).2.cold_tier = s.cold_tier ∧
    (s.add item now).2.config = s.config ∧
    (s.add item now).2.dedup = s.dedup ∧
    ∃ t, (s.add item now).2.signatures = s.signatures ++ t := by
  unfold TieredLTM.add
  split_ifs with hv hd hfull
  all_goals try exact ⟨rfl, rfl, rfl, [],
    (List.append_nil s.signatures).symm⟩
  all_goals try exact ⟨rfl, rfl, rfl, _, rfl⟩
  all_goals cases he : s.evict_from_hot now with
    | none => exact ⟨rfl, rfl, rfl, _, rfl⟩
    | some p =>
        obtain ⟨ev, s2⟩ := p
        obtain ⟨-, -, hcold, hcfg, hdd, hsig, -⟩ :=
          evict_from_hot_eq s now ev s2 he
        dsimp only
        exact ⟨hcold, hcfg, hdd, _, by rw [hsig]⟩

theorem sizeTCast_of_int_range (c : Int) (h1 : 0 ≤ c) (h2 : c < 2 ^ 64) :
    sizeTCast c = c.toNat := by
  unfold sizeTCast
  rw [Int.emod_eq_of_lt h1 h2]

theorem add_hot_le (s : TieredLTM) (item : MemoryItem) (now : ℝ)
    (hcap : 1 ≤ sizeTCast s.config.hot.capacity)
    (hle : s.hot_tier.length ≤ sizeTCast s.config.hot.capacity) :
    (s.add item now).2.hot_tier.length ≤ sizeTCast s.config.hot.capacity := by
  by_cases hv2 : s.validate_item item
  · by_cases hd2 : s.is_duplicate item
    · rw [add_duplicate s item now hv2 hd2]
      exact hle
    · unfold TieredLTM.add
      rw [if_neg (not_not_intro hv2), if_neg hd2]
      dsimp only
      by_cases hfull : sizeTCast s.config.hot.capacity ≤ s.hot_tier.length
      · rw [if_pos hfull]
        have hne : s.hot_tier ≠ [] := by
          intro h0
          rw [h0] at hfull
          simp at hfull
          omega
        obtain ⟨ev, s2, he⟩ := evict_from_hot_total s now hne
        rw [he]
        obtain ⟨hlen, -, -, -, -, -, -⟩ := evict_from_hot_eq s now ev s2 he
        try dsimp only
        rw [List.length_append]
        simp only [List.length_cons, List.length_nil]
        omega
      · rw [if_neg hfull]
        try dsimp only
        rw [List.length_append]
        simp only [List.length_cons, List.length_nil]
        omega
  · rw [add_invalid s item now hv2]
    exact hle

-- ===========================================================================
-- Claim C3: hot tier never exceeds capacity under add()
-- ===========================================================================

/-- Claim C3: from a freshly constructed `TieredLTM` with hot capacity at
least 1 (and within the C++ `int` range), after any finite sequence of
`add()` calls the hot tier size is at most the configured hot capacity:
`add` evicts into warm before inserting whenever hot is at capacity. -/
theorem hot_size_le_capacity_after_adds (cfg : TieredLTMConfig)
    (seeds : List Nat) (ops : List Op)
    (hadds : ∀ op ∈ ops, ∃ it n, op = Op.add it n)
    (h1 : 1 ≤ cfg.hot.capacity) (h2 : cfg.hot.capacity < 2 ^ 64) :
    (run ops (initLTM cfg seeds)).hot_size ≤ cfg.hot.capacity.toNat := by
  have hcast : sizeTCast cfg.hot.capacity = cfg.hot.capacity.toNat :=
    sizeTCast_of_int_range _ (by omega) h2
  have key : ∀ (l : List Op) (s : TieredLTM), s.config = cfg →
      s.hot_tier.length ≤ cfg.hot.capacity.toNat →
      (∀ op ∈ l, ∃ it n, op = Op.add it n) →
      (run l s).hot_size ≤ cfg.hot.capacity.toNat := by
    intro l
    induction l with
    | nil => intro s _ hle _; exact hle
    | cons op rest ih =>
        intro s hc hle hall
        obtain ⟨it, n, rfl⟩ := hall op (List.mem_cons_self op rest)
        have hrun : run (Op.add it n :: rest) s = run rest (s.add it n).2 := rfl
        rw [hrun]
        have hcfg2 : (s.add it n).2.config = cfg := by
          rw [(add_frame s it n).2.1, hc]
        have hle2 : (s.add it n).2.hot_tier.length ≤ cfg.hot.capacity.toNat := by
          have := add_hot_le s it n (by rw [hc, hcast]; omega)
            (by rw [hc, hcast]; exact hle)
          rw [hc, hcast] at this
          exact this
        exact ih _ hcfg2 hle2 (fun o ho => hall o (List.mem_cons_of_mem _ ho))
  exact key ops (initLTM cfg seeds) rfl (by simp [initLTM]) hadds

/-- Witness for C3 at the default configuration with one concrete add. -/
theorem hot_size_le_capacity_witness :
    (∀ op ∈ [Op.add itemA2 0], ∃ it n, op = Op.add it n) ∧
    (1 : Int) ≤ cfg0.hot.capacity ∧ cfg0.hot.capacity < 2 ^ 64 ∧
    (run [Op.add itemA2 0] (initLTM cfg0 [])).hot_size ≤
      cfg0.hot.capacity.toNat :=
  ⟨by intro op hop; simp at hop; exact ⟨itemA2, 0, hop⟩,
    by decide, by decide,
    hot_size_le_capacity_after_adds cfg0 [] [Op.add itemA2 0]
      (by intro op hop; simp at hop; exact ⟨itemA2, 0, hop⟩)
      (by decide) (by decide)⟩

-- ===========================================================================
-- Claim C4: an exact-embedding duplicate is blocked
-- ===========================================================================

theorem jaccard_self (sig : MinHashSig) :
    MinHashDedup.jaccard_similarity sig sig = 1 := by
  unfold MinHashDedup.jaccard_similarity
  rw [if_pos rfl, if_pos rfl]
  norm_num

/-- Explicit form of a successful `add` when the hot tier is under
capacity. -/
theorem add_success_eq (s : TieredLTM) (item : MemoryItem) (now : ℝ)
    (hv : s.validate_item item) (hd : ¬ s.is_duplicate item)
    (hfull : ¬ sizeTCast s.config.hot.capacity ≤ s.hot_tier.length) :
    s.add item now =
      (true, { s with
        hot_tier := s.hot_tier ++ [{ item with
          tier := "hot"
          timestamp := now
          last_access := now
          minhash_sig := s.dedup.compute_signature item.embedding }]
        hot_index := mapInsert s.hot_index item.source_doc_id
          s.hot_tier.length
        signatures := s.signatures ++
          [s.dedup.compute_signature item.embedding]
        stats := { s.stats with
          hot_count := s.stats.hot_count + 1
          total_count := s.stats.total_count + 1 } }) := by
  unfold TieredLTM.add
  rw [if_neg (not_not_intro hv), if_neg hd]
  dsimp only
  rw [if_neg hfull]

/-- Claim C4: on a fresh cache, adding a valid item A and then an item B with
exactly A's embedding but a different non-empty `source_doc_id` yields: first
call true, second call false, `total_size() == 1`, `duplicates_blocked`
incremented by exactly one, and the second call leaves every tier
unchanged. -/
theorem duplicate_embedding_add_blocked (cfg : TieredLTMConfig)
    (seeds : List Nat) (A : MemoryItem) (d : String) (now1 now2 : ℝ)
    (hA : (initLTM cfg seeds).validate_item A) (hd : d ≠ "")
    (hth : cfg.dedup.similarity_threshold ≤ 1)
    (hcap1 : 1 ≤ cfg.hot.capacity) (hcap2 : cfg.hot.capacity < 2 ^ 64) :
    ((initLTM cfg seeds).add A now1).1 = true ∧
    (((initLTM cfg seeds).add A now1).2.add
        { A with source_doc_id := d } now2).1 = false ∧
    (((initLTM cfg seeds).add A now1).2.add
        { A with source_doc_id := d } now2).2.total_size = 1 ∧
    (((initLTM cfg seeds).add A now1).2.add
        { A with source_doc_id := d } now2).2.stats.duplicates_blocked =
      (initLTM cfg seeds).stats.duplicates_blocked + 1 ∧
    (((initLTM cfg seeds).add A now1).2.add
        { A with source_doc_id := d } now2).2.hot_tier =
      ((initLTM cfg seeds).add A now1).2.hot_tier ∧
    (((initLTM cfg seeds).add A now1).2.add
        { A with source_doc_id := d } now2).2.warm_tier =
      ((initLTM cfg seeds).add A now1).2.warm_tier ∧
    (((initLTM cfg seeds).add A now1).2.add
        { A with source_doc_id := d } now2).2.cold_tier =
      ((initLTM cfg seeds).add A now1).2.cold_tier := by
  set s0 := initLTM cfg seeds with hs0
  set B : MemoryItem := { A with source_doc_id := d } with hB
  have hdup0 : ¬ s0.is_duplicate A := by
    simp [hs0, initLTM, TieredLTM.is_duplicate, MinHashDedup.sig_is_duplicate]
  have hfull0 : ¬ sizeTCast s0.config.hot.capacity ≤ s0.hot_tier.length := by
    show ¬ sizeTCast cfg.hot.capacity ≤ ([] : List MemoryItem).length
    rw [sizeTCast_of_int_range _ (by omega) hcap2]
    simp
    omega
  have h1 := add_success_eq s0 A now1 hA hdup0 hfull0
  have hvB : (s0.add A now1).2.validate_item B := by
    unfold TieredLTM.validate_item at hA ⊢
    obtain ⟨a1, a2, a3, a4, a5, -⟩ := hA
    exact ⟨a1, a2, a3, a4, a5, hd⟩
  have hsig1 : (s0.add A now1).2.signatures =
      [s0.dedup.compute_signature A.embedding] := by
    rw [h1]
    rfl
  have hcfg1 : (s0.add A now1).2.config = cfg := by
    rw [h1]
    rfl
  have hded1 : (s0.add A now1).2.dedup = s0.dedup := by
    rw [h1]
  have hdupB : (s0.add A now1).2.is_duplicate B := by
    unfold TieredLTM.is_duplicate MinHashDedup.sig_is_duplicate
    rw [hsig1, hcfg1, hded1]
    refine ⟨s0.dedup.compute_signature A.embedding, by simp, ?_⟩
    have hemb : B.embedding = A.embedding := rfl
    rw [hemb, jaccard_self]
    exact hth
  have h2 := add_duplicate _ B now2 hvB hdupB
  refine ⟨by rw [h1], by rw [h2], ?_, ?_, ?_, ?_, ?_⟩
  · rw [h2]
    unfold TieredLTM.total_size TieredLTM.hot_size TieredLTM.warm_size
      TieredLTM.cold_size
    try dsimp only
    rw [h1]
    rfl
  · rw [h2]
    try dsimp only
    rw [h1]
    try rfl
  · rw [h2]
  · rw [h2]
  · rw [h2]

/-- Witness for C4: the default configuration, `itemC1` as A, and "b" as the
second doc id. -/
theorem duplicate_embedding_add_blocked_witness :
    ((initLTM cfg0 []).add itemC1 0).1 = true ∧
    (((initLTM cfg0 []).add itemC1 0).2.add
        { itemC1 with source_doc_id := "b" } 0).1 = false ∧
    (((initLTM cfg0 []).add itemC1 0).2.add
        { itemC1 with source_doc_id := "b" } 0).2.total_size = 1 := by
  have hA : (initLTM cfg0 []).validate_item itemC1 := by
    unfold TieredLTM.validate_item
    refine ⟨by norm_num [itemC1], by norm_num [itemC1], by norm_num [itemC1],
      by norm_num [itemC1], by norm_num [itemC1], by simp [itemC1]⟩
  have h := duplicate_embedding_add_blocked cfg0 [] itemC1 "b" 0 0 hA
    (by simp) (by norm_num [cfg0]) (by decide) (by decide)
  exact ⟨h.1, h.2.1, h.2.2.1⟩

-- ===========================================================================
-- Claim C7: decay never increases importance
-- ===========================================================================

theorem truncSec_nonneg (x : ℝ) (h : 0 ≤ x) : 0 ≤ (truncSec x : ℝ) := by
  unfold truncSec
  rw [if_pos h]
  exact_mod_cast Int.floor_nonneg.2 h

theorem decay_mult_pos_le_one (cfg : TieredLTMConfig) (item : MemoryItem)
    (now : ℝ) (hhl : 0 < cfg.decay.half_life_days)
    (ht : item.timestamp ≤ now) (ha : item.last_access ≤ now) :
    0 < compute_decay_multiplier cfg item now ∧
    compute_decay_multiplier cfg item now ≤ 1 := by
  have hage : (0 : ℝ) ≤ (truncSec (now - item.timestamp) : ℝ) :=
    truncSec_nonneg _ (by linarith)
  have hacc : (0 : ℝ) ≤ (truncSec (now - item.last_access) : ℝ) :=
    truncSec_nonneg _ (by linarith)
  have hrle : (0.5 : ℝ) ^
      (((truncSec (now - item.timestamp) : ℝ) / 86400.0) /
        cfg.decay.half_life_days) ≤ 1 :=
    Real.rpow_le_one (by norm_num) (by norm_num)
      (div_nonneg (div_nonneg hage (by norm_num)) hhl.le)
  have hrpos : (0 : ℝ) < (0.5 : ℝ) ^
      (((truncSec (now - item.timestamp) : ℝ) / 86400.0) /
        cfg.decay.half_life_days) :=
    Real.rpow_pos_of_pos (by norm_num) _
  have hexple : Real.exp (-((truncSec (now - item.last_access) : ℝ) / 86400.0) /
      (cfg.decay.half_life_days * 2)) ≤ 1 := by
    rw [Real.exp_le_one_iff]
    apply div_nonpos_of_nonpos_of_nonneg
    · exact neg_nonpos.2 (div_nonneg hacc (by norm_num))
    · positivity
  unfold compute_decay_multiplier
  dsimp only
  constructor
  · exact lt_of_lt_of_le (by norm_num : (0 : ℝ) < 0.01) (le_max_right _ _)
  · apply max_le _ (by norm_num)
    split_ifs with h1 h2 h3
    · exact mul_le_one₀ hrle (Real.exp_pos _).le hexple
    · rw [mul_one]
      exact hrle
    · rw [one_mul]
      exact hexple
    · norm_num

/-- Claim C7: `apply_decay` never increases any item's importance: for every
hot or warm item whose age and time since last access are non-negative (and
whose importance is non-negative, as validation and decay itself maintain),
the decay multiplier lies in (0, 1] and the new importance is at most the
old one; reapplying the theorem to the decayed state gives the repeatable
non-increase. -/
theorem apply_decay_nonincreasing (s : TieredLTM) (now : ℝ)
    (hhl : 0 < s.config.decay.half_life_days)
    (hItems : ∀ it ∈ s.hot_tier ++ s.warm_tier,
      it.timestamp ≤ now ∧ it.last_access ≤ now ∧ 0 ≤ it.importance) :
    (∀ it ∈ s.hot_tier ++ s.warm_tier,
      0 < compute_decay_multiplier s.config it now ∧
      compute_decay_multiplier s.config it now ≤ 1) ∧
    List.Forall₂ (fun a b => a.importance ≤ b.importance)
      (s.apply_decay now).hot_tier s.hot_tier ∧
    List.Forall₂ (fun a b => a.importance ≤ b.importance)
      (s.apply_decay now).warm_tier s.warm_tier := by
  refine ⟨?_, ?_, ?_⟩
  · intro it hit
    exact decay_mult_pos_le_one s.config it now hhl
      (hItems it hit).1 (hItems it hit).2.1
  · unfold TieredLTM.apply_decay
    split_ifs with hoff
    · exact List.forall₂_same.2 (fun x _ => le_refl x.importance)
    · dsimp only
      rw [List.forall₂_map_left_iff]
      apply List.forall₂_same.2
      intro x hx
      have hm := decay_mult_pos_le_one s.config x now hhl
        (hItems x (List.mem_append_left _ hx)).1
        (hItems x (List.mem_append_left _ hx)).2.1
      exact mul_le_of_le_one_right
        (hItems x (List.mem_append_left _ hx)).2.2 hm.2
  · unfold TieredLTM.apply_decay
    split_ifs with hoff
    · exact List.forall₂_same.2 (fun x _ => le_refl x.importance)
    · dsimp only
      rw [List.forall₂_map_left_iff]
      apply List.forall₂_same.2
      intro x hx
      have hm := decay_mult_pos_le_one s.config x now hhl
        (hItems x (List.mem_append_right _ hx)).1
        (hItems x (List.mem_append_right _ hx)).2.1
      exact mul_le_of_le_one_right
        (hItems x (List.mem_append_right _ hx)).2.2 hm.2

/-- A one-item state used as the C7 witness input. -/
noncomputable def sC7 : TieredLTM :=
  { config := cfg0, dedup := dedup0, hot_tier := [itemC1] }

/-- Witness for C7: the default configuration (half life 30 days) on a
one-item state at time 0. -/
theorem apply_decay_nonincreasing_witness :
    (0 : ℝ) < sC7.config.decay.half_life_days ∧
    List.Forall₂ (fun a b => a.importance ≤ b.importance)
      (sC7.apply_decay 0).hot_tier sC7.hot_tier := by
  have hhl : (0 : ℝ) < sC7.config.decay.half_life_days := by
    norm_num [sC7, cfg0]
  have hItems : ∀ it ∈ sC7.hot_tier ++ sC7.warm_tier,
      it.timestamp ≤ (0 : ℝ) ∧ it.last_access ≤ (0 : ℝ) ∧
      0 ≤ it.importance := by
    intro it hit
    have : it = itemC1 := by
      simpa [sC7] using hit
    subst this
    refine ⟨le_refl _, le_refl _, ?_⟩
    norm_num [itemC1]
  exact ⟨hhl, (apply_decay_nonincreasing sC7 0 hhl hItems).2.1⟩

-- ===========================================================================
-- Frame lemmas: what each public operation leaves untouched
-- ===========================================================================

theorem promote_frame (s : TieredLTM) (i f t : String) :
    (s.promote i f t).cold_tier = s.cold_tier ∧
    (s.promote i f t).config = s.config ∧
    (s.promote i f t).dedup = s.dedup ∧
    (s.promote i f t).signatures = s.signatures := by
  unfold TieredLTM.promote
  split_ifs with hc
  · cases hf : mapFind s.warm_index i with
    | none => exact ⟨rfl, rfl, rfl, rfl⟩
    | some pos =>
        by_cases h : pos < s.warm_tier.length
        · dsimp only
          rw [dif_pos h]
          exact ⟨rfl, rfl, rfl, rfl⟩
        · dsimp only
          rw [dif_neg h]
          exact ⟨rfl, rfl, rfl, rfl⟩
  · exact ⟨rfl, rfl, rfl, rfl⟩

theorem demote_frame (s : TieredLTM) (i f t : String) :
    (s.demote i f t).cold_tier = s.cold_tier ∧
    (s.demote i f t).config = s.config ∧
    (s.demote i f t).dedup = s.dedup ∧
    (s.demote i f t).signatures = s.signatures := by
  unfold TieredLTM.demote
  split_ifs with hc
  · cases hf : mapFind s.hot_index i with
    | none => exact ⟨rfl, rfl, rfl, rfl⟩
    | some pos =>
        by_cases h : pos < s.hot_tier.length
        · dsimp only
          rw [dif_pos h]
          exact ⟨rfl, rfl, rfl, rfl⟩
        · dsimp only
          rw [dif_neg h]
          exact ⟨rfl, rfl, rfl, rfl⟩
  · exact ⟨rfl, rfl, rfl, rfl⟩

theorem foldl_promote_frame (l : List (String × ℝ)) :
    ∀ s : TieredLTM,
    ((l.foldl (fun st p => st.promote p.1 "warm" "hot") s).cold_tier =
        s.cold_tier ∧
      (l.foldl (fun st p => st.promote p.1 "warm" "hot") s).config =
        s.config ∧
      (l.foldl (fun st p => st.promote p.1 "warm" "hot") s).dedup =
        s.dedup ∧
      (l.foldl (fun st p => st.promote p.1 "warm" "hot") s).signatures =
        s.signatures) := by
  induction l with
  | nil => intro s; exact ⟨rfl, rfl, rfl, rfl⟩
  | cons p rest ih =>
      intro s
      simp only [List.foldl_cons]
      obtain ⟨h1, h2, h3, h4⟩ := ih (s.promote p.1 "warm" "hot")
      obtain ⟨g1, g2, g3, g4⟩ := promote_frame s p.1 "warm" "hot"
      exact ⟨h1.trans g1, h2.trans g2, h3.trans g3, h4.trans g4⟩

theorem foldl_demote_frame (l : List (String × ℝ)) :
    ∀ s : TieredLTM,
    ((l.foldl (fun st p => st.demote p.1 "hot" "warm") s).cold_tier =
        s.cold_tier ∧
      (l.foldl (fun st p => st.demote p.1 "hot" "warm") s).config =
        s.config ∧
      (l.foldl (fun st p => st.demote p.1 "hot" "warm") s).dedup =
        s.dedup ∧
      (l.foldl (fun st p => st.demote p.1 "hot" "warm") s).signatures =
        s.signatures) := by
  induction l with
  | nil => intro s; exact ⟨rfl, rfl, rfl, rfl⟩
  | cons p rest ih =>
      intro s
      simp only [List.foldl_cons]
      obtain ⟨h1, h2, h3, h4⟩ := ih (s.demote p.1 "hot" "warm")
      obtain ⟨g1, g2, g3, g4⟩ := demote_frame s p.1 "hot" "warm"
      exact ⟨h1.trans g1, h2.trans g2, h3.trans g3, h4.trans g4⟩

theorem apply_decay_frame (s : TieredLTM) (now : ℝ) :
    (s.apply_decay now).cold_tier = s.cold_tier ∧
    (s.apply_decay now).config = s.config ∧
    (s.apply_decay now).dedup = s.dedup ∧
    (s.apply_decay now).signatures = s.signatures := by
  unfold TieredLTM.apply_decay
  split_ifs
  · exact ⟨rfl, rfl, rfl, rfl⟩
  · exact ⟨rfl, rfl, rfl, rfl⟩

theorem check_promotions_frame (s : TieredLTM) (now : ℝ) :
    (s.check_promotions now).cold_tier = s.cold_tier ∧
    (s.check_promotions now).config = s.config ∧
    (s.check_promotions now).dedup = s.dedup ∧
    (s.check_promotions now).signatures = s.signatures := by
  unfold TieredLTM.check_promotions
  exact foldl_promote_frame _ s

theorem check_demotions_frame (s : TieredLTM) (now : ℝ) :
    (s.check_demotions now).cold_tier = s.cold_tier ∧
    (s.check_demotions now).config = s.config ∧
    (s.check_demotions now).dedup = s.dedup ∧
    (s.check_demotions now).signatures = s.signatures := by
  unfold TieredLTM.check_demotions
  dsimp only
  split_ifs
  · exact foldl_demote_frame _ s
  · exact ⟨rfl, rfl, rfl, rfl⟩

theorem maintenance_frame (s : TieredLTM) (now : ℝ) :
    (s.maintenance now).cold_tier = s.cold_tier ∧
    (s.maintenance now).config = s.config ∧
    (s.maintenance now).dedup = s.dedup ∧
    (s.maintenance now).signatures = s.signatures := by
  unfold TieredLTM.maintenance
  obtain ⟨a1, a2, a3, a4⟩ := apply_decay_frame s now
  obtain ⟨b1, b2, b3, b4⟩ := check_promotions_frame (s.apply_decay now) now
  obtain ⟨c1, c2, c3, c4⟩ :=
    check_demotions_frame ((s.apply_decay now).check_promotions now) now
  exact ⟨(c1.trans b1).trans a1, (c2.trans b2).trans a2,
    (c3.trans b3).trans a3, (c4.trans b4).trans a4⟩

/-- Every public operation except `clear` preserves the cold tier, the
configuration and the deduplicator, and can only append to the signature
set. -/
theorem step_frame (s : TieredLTM) (op : Op) (hnc : op ≠ Op.clear) :
    (step s op).cold_tier = s.cold_tier ∧
    (step s op).config = s.config ∧
    (step s op).dedup = s.dedup ∧
    ∃ t, (step s op).signatures = s.signatures ++ t := by
  cases op with
  | add item now =>
      obtain ⟨a, b, c, t, dd⟩ := add_frame s item now
      exact ⟨a, b, c, t, dd⟩
  | retrieve q k now =>
      dsimp only [step]
      cases hr : s.retrieve q k now with
      | error e => exact ⟨rfl, rfl, rfl, [], (List.append_nil _).symm⟩
      | ok p =>
          obtain ⟨r, s2⟩ := p
          obtain ⟨-, -, hcold, hcfg, hdd, hsig, -, -⟩ :=
            retrieve_ok_state_eq s q k now r s2 hr
          exact ⟨hcold, hcfg, hdd, [], by rw [hsig, List.append_nil]⟩
  | consolidate item imp now =>
      dsimp only [step]
      unfold TieredLTM.consolidate
      split_ifs
      · obtain ⟨a, b, c, t, dd⟩ := add_frame s _ now
        exact ⟨a, b, c, t, dd⟩
      · exact ⟨rfl, rfl, rfl, [], (List.append_nil _).symm⟩
  | promote i f t =>
      obtain ⟨a, b, c, dd⟩ := promote_frame s i f t
      exact ⟨a, b, c, [], by rw [List.append_nil]; exact dd⟩
  | demote i f t =>
      obtain ⟨a, b, c, dd⟩ := demote_frame s i f t
      exact ⟨a, b, c, [], by rw [List.append_nil]; exact dd⟩
  | maintenance now =>
      obtain ⟨a, b, c, dd⟩ := maintenance_frame s now
      exact ⟨a, b, c, [], by rw [List.append_nil]; exact dd⟩
  | applyDecay now =>
      obtain ⟨a, b, c, dd⟩ := apply_decay_frame s now
      exact ⟨a, b, c, [], by rw [List.append_nil]; exact dd⟩
  | checkPromotions now =>
      obtain ⟨a, b, c, dd⟩ := check_promotions_frame s now
      exact ⟨a, b, c, [], by rw [List.append_nil]; exact dd⟩
  | checkDemotions now =>
      obtain ⟨a, b, c, dd⟩ := check_demotions_frame s now
      exact ⟨a, b, c, [], by rw [List.append_nil]; exact dd⟩
  | clear => exact absurd rfl hnc

theorem run_frame (ops : List Op) :
    ∀ s : TieredLTM, Op.clear ∉ ops →
    (run ops s).config = s.config ∧ (run ops s).dedup = s.dedup ∧
    ∃ t, (run ops s).signatures = s.signatures ++ t := by
  induction ops with
  | nil => intro s _; exact ⟨rfl, rfl, [], (List.append_nil _).symm⟩
  | cons op rest ih =>
      intro s hnc
      have hop : op ≠ Op.clear := by
        intro he
        exact hnc (he ▸ List.mem_cons_self op rest)
      obtain ⟨-, hcfg, hdd, t1, hsig⟩ := step_frame s op hop
      obtain ⟨hcfg2, hdd2, t2, hsig2⟩ :=
        ih (step s op) (fun hm => hnc (List.mem_cons_of_mem _ hm))
      have hrun : run (op :: rest) s = run rest (step s op) := rfl
      rw [hrun]
      exact ⟨by rw [hcfg2, hcfg], by rw [hdd2, hdd], t1 ++ t2,
        by rw [hsig2, hsig, List.append_assoc]⟩

-- ===========================================================================
-- Claim C9: the cold tier is never populated
-- ===========================================================================

theorem step_cold_empty (s : TieredLTM) (op : Op) (hc : s.cold_tier = []) :
    (step s op).cold_tier = [] := by
  by_cases hnc : op = Op.clear
  · subst hnc
    rfl
  · rw [(step_frame s op hnc).1, hc]

/-- Claim C9: starting from a freshly constructed `TieredLTM`, every
sequence of public operations (including `clear`) keeps the cold tier
empty, and consequently `total_size()` always equals
`hot_size() + warm_size()`. -/
theorem cold_tier_never_populated (cfg : TieredLTMConfig) (seeds : List Nat)
    (ops : List Op) :
    (run ops (initLTM cfg seeds)).cold_size = 0 ∧
    (run ops (initLTM cfg seeds)).total_size =
      (run ops (initLTM cfg seeds)).hot_size +
        (run ops (initLTM cfg seeds)).warm_size := by
  have key : ∀ (l : List Op) (s : TieredLTM), s.cold_tier = [] →
      (run l s).cold_tier = [] := by
    intro l
    induction l with
    | nil => intro s hc; exact hc
    | cons op rest ih => intro s hc; exact ih _ (step_cold_empty s op hc)
  have hc := key ops (initLTM cfg seeds) rfl
  constructor
  · unfold TieredLTM.cold_size
    rw [hc]
    rfl
  · unfold TieredLTM.total_size TieredLTM.cold_size
    rw [hc]
    rfl

-- ===========================================================================
-- Claim C10: duplicate blocking is permanent until clear()
-- ===========================================================================

theorem is_duplicate_mono (s s2 : TieredLTM) (B : MemoryItem)
    (t : List MinHashSig)
    (hcfg : s2.config = s.config) (hdd : s2.dedup = s.dedup)
    (hsig : s2.signatures = s.signatures ++ t)
    (h : s.is_duplicate B) : s2.is_duplicate B := by
  unfold TieredLTM.is_duplicate MinHashDedup.sig_is_duplicate at h ⊢
  rw [hcfg, hdd, hsig]
  obtain ⟨e, he, hje⟩ := h
  exact ⟨e, List.mem_append_left _ he, hje⟩

/-- Claim C10: if `add(B)` is rejected as a duplicate (B valid, its signature
matched), then after any further sequence of public calls with no `clear`,
`add(B)` is still rejected: the signature set only grows and no operation
other than `clear` removes signatures. -/
theorem duplicate_blocking_permanent (s : TieredLTM) (B : MemoryItem)
    (now0 now1 : ℝ) (ops : List Op)
    (hv : s.validate_item B) (hd : s.is_duplicate B)
    (hnc : Op.clear ∉ ops) :
    (s.add B now0).1 = false ∧
    ((run ops (s.add B now0).2).add B now1).1 = false := by
  have h0 := add_duplicate s B now0 hv hd
  have hsig1 : (s.add B now0).2.signatures = s.signatures := by rw [h0]
  have hcfg1 : (s.add B now0).2.config = s.config := by rw [h0]
  have hdd1 : (s.add B now0).2.dedup = s.dedup := by rw [h0]
  obtain ⟨hcfgR, hddR, t, hsigR⟩ := run_frame ops (s.add B now0).2 hnc
  have hv2 : (run ops (s.add B now0).2).validate_item B := hv
  have hd2 : (run ops (s.add B now0).2).is_duplicate B := by
    apply is_duplicate_mono s _ B t
    · rw [hcfgR, hcfg1]
    · rw [hddR, hdd1]
    · rw [hsigR, hsig1]
    · exact hd
  have h2 := add_duplicate _ B now1 hv2 hd2
  exact ⟨by rw [h0], by rw [h2]⟩

/-- A state whose signature set already holds the signature of `[1]`, and a
valid item carrying that embedding — the C10 witness input. -/
noncomputable def sC10 : TieredLTM :=
  { config := cfg0
    dedup := dedup0
    signatures := [dedup0.compute_signature [(1 : ℝ)]] }

/-- Witness for C10: with `itemC1`'s embedding already fingerprinted in
`sC10`, `add(itemC1)` is rejected now and still rejected after a demote
call (no clear in between). -/
theorem duplicate_blocking_permanent_witness :
    (sC10.add itemC1 0).1 = false ∧
    ((run [Op.demote "x" "hot" "warm"] (sC10.add itemC1 0).2).add
      itemC1 1).1 = false := by
  have hv : sC10.validate_item itemC1 := by
    unfold TieredLTM.validate_item
    refine ⟨by norm_num [itemC1], by norm_num [itemC1], by norm_num [itemC1],
      by norm_num [itemC1], by norm_num [itemC1], by simp [itemC1]⟩
  have hd : sC10.is_duplicate itemC1 := by
    unfold TieredLTM.is_duplicate MinHashDedup.sig_is_duplicate
    refine ⟨dedup0.compute_signature [(1 : ℝ)], by simp [sC10], ?_⟩
    have hemb : itemC1.embedding = [(1 : ℝ)] := rfl
    have hded : sC10.dedup = dedup0 := rfl
    rw [hemb, hded, jaccard_self]
    norm_num [sC10, cfg0]
  have hnc : Op.clear ∉ [Op.demote "x" "hot" "warm"] := by simp
  exact duplicate_blocking_permanent sC10 itemC1 0 1
    [Op.demote "x" "hot" "warm"] hv hd hnc

end hab
